import Mathlib

set_option maxRecDepth 100000

/-!
Verification of the nodemcuload protocol core (`nodemcuload.py`).

The serial channel is modelled as a scripted byte stream: `Chan.input` holds
the bytes the device will deliver to `serial.read`, and `Chan.sent` logs the
payload of every `serial.write`, in order.  Python strings are modelled as
lists of Unicode code points (`List Nat`), byte strings as lists of byte
values.  All session operations are state-passing functions
`Chan → Except Err α × Chan`, so that (as in Python, where the serial object
mutates independently of exceptions) the channel state survives a raised
error.
-/

namespace Nodemcuload

/-- ASCII string literal to its list of code points (= its UTF-8 bytes,
for the ASCII commands this protocol exchanges). -/
def s2b (s : String) : List Nat := s.toList.map Char.toNat

/-- The default line terminator `"\r\n"`. -/
def crlf : List Nat := [13, 10]

/-- The interactive prompt `"> "` used as alternate terminator. -/
def promptBytes : List Nat := [62, 32]

/-- UTF-8 encoding of one code point (`str.encode("utf-8")`, per scalar). -/
def utf8EncodeChar (c : Nat) : List Nat :=
  if c < 0x80 then [c]
  else if c < 0x800 then [0xC0 + c / 64, 0x80 + c % 64]
  else if c < 0x10000 then [0xE0 + c / 4096, 0x80 + c / 64 % 64, 0x80 + c % 64]
  else [0xF0 + c / 262144, 0x80 + c / 4096 % 64, 0x80 + c / 64 % 64, 0x80 + c % 64]

/-- UTF-8 encoding of a string of code points. -/
def utf8Encode (s : List Nat) : List Nat := s.flatMap utf8EncodeChar

/-- Is `b` a UTF-8 continuation byte? -/
def isCont (b : Nat) : Bool := 0x80 ≤ b ∧ b ≤ 0xBF

/-- Strict UTF-8 decoding (`bytes.decode("utf-8")`): rejects overlong forms,
surrogates and code points above U+10FFFF, as CPython does.  `none` models a
raised `UnicodeDecodeError`. -/
def utf8Decode : List Nat → Option (List Nat)
  | [] => some []
  | b :: rest =>
    if b < 0x80 then (utf8Decode rest).map (b :: ·)
    else if 0xC2 ≤ b ∧ b ≤ 0xDF then
      match rest with
      | c1 :: rest2 =>
        if isCont c1 then (utf8Decode rest2).map (((b - 0xC0) * 64 + (c1 - 0x80)) :: ·)
        else none
      | _ => none
    else if 0xE0 ≤ b ∧ b ≤ 0xEF then
      match rest with
      | c1 :: c2 :: rest3 =>
        if (if b = 0xE0 then 0xA0 ≤ c1 ∧ c1 ≤ 0xBF
            else if b = 0xED then 0x80 ≤ c1 ∧ c1 ≤ 0x9F
            else isCont c1 = true) ∧ isCont c2 then
          (utf8Decode rest3).map
            (((b - 0xE0) * 4096 + (c1 - 0x80) * 64 + (c2 - 0x80)) :: ·)
        else none
      | _ => none
    else if 0xF0 ≤ b ∧ b ≤ 0xF4 then
      match rest with
      | c1 :: c2 :: c3 :: rest4 =>
        if (if b = 0xF0 then 0x90 ≤ c1 ∧ c1 ≤ 0xBF
            else if b = 0xF4 then 0x80 ≤ c1 ∧ c1 ≤ 0x8F
            else isCont c1 = true) ∧ isCont c2 ∧ isCont c3 then
          (utf8Decode rest4).map
            (((b - 0xF0) * 262144 + (c1 - 0x80) * 4096 + (c2 - 0x80) * 64 + (c3 - 0x80)) :: ·)
        else none
      | _ => none
    else none

/-- Errors a session operation can raise.  Each constructor corresponds to
one raise site of the source (the `IOError`s carry their distinguishing
payload), plus the channel-level failures. -/
inductive Err
  /-- The channel was exhausted during a blocking read. -/
  | timeout
  /-- `bytes.decode("utf-8")` failed (`UnicodeDecodeError`). -/
  | unicodeDecodeError
  /-- `line_ending.encode(...)` on a value with no `encode` attribute
  (the `set` literal that `dofile` passes to `read_line`). -/
  | attributeError
  /-- `int(...)` on non-numeric text (`ValueError`). -/
  | valueError
  /-- Fuel exhaustion: models a loop of the source that never terminates. -/
  | hang
  /-- `IOError("Could not open file for writing!")` in `write_file`. -/
  | couldNotOpenForWriting
  /-- `IOError("Write failed! (Return value: ...)")` in `write_file`,
  carrying the offending response line. -/
  | writeFailed (resp : List Nat)
  /-- `IOError("File does not exist!")`. -/
  | fileDoesNotExist
  /-- `IOError("Could not open file!")` in `read_file`. -/
  | couldNotOpen
deriving DecidableEq

instance {ε α : Type} [DecidableEq ε] [DecidableEq α] : DecidableEq (Except ε α) := fun x y =>
  match x, y with
  | .ok a, .ok b =>
    if h : a = b then .isTrue (by rw [h]) else .isFalse (fun hh => h (Except.ok.inj hh))
  | .error a, .error b =>
    if h : a = b then .isTrue (by rw [h]) else .isFalse (fun hh => h (Except.error.inj hh))
  | .ok _, .error _ => .isFalse (fun hh => Except.noConfusion hh)
  | .error _, .ok _ => .isFalse (fun hh => Except.noConfusion hh)

/-- The scripted serial channel: pending device-to-host bytes, and the log
of host-to-device writes. -/
structure Chan where
  input : List Nat
  sent : List (List Nat)
deriving DecidableEq

/-- Session computations: state-passing over the channel, with Python-style
exceptions (the channel state survives an error). -/
def M (α : Type) : Type := Chan → Except Err α × Chan

def mpure {α : Type} (a : α) : M α := fun c => (.ok a, c)

def mbind {α β : Type} (x : M α) (f : α → M β) : M β := fun c =>
  match x c with
  | (.ok a, c') => f a c'
  | (.error e, c') => (.error e, c')

instance : Monad M where
  pure := mpure
  bind := mbind

/-- Raise an exception. -/
def throwE {α : Type} (e : Err) : M α := fun c => (.error e, c)

/-- Lift a pure `Except` computation. -/
def liftE {α : Type} (x : Except Err α) : M α := fun c => (x, c)

/-- `self.serial.read(n)`: consume exactly `n` pending bytes; if fewer are
pending the blocking read never completes (modelled as `timeout`). -/
def pyRead (n : Nat) : M (List Nat) := fun c =>
  if n ≤ c.input.length then (.ok (c.input.take n), { c with input := c.input.drop n })
  else (.error .timeout, c)

/-- `self.serial.write(data)`: append the payload to the sent log
(`send_command` ignores the reported length). -/
def pyWrite (d : List Nat) : M Unit := fun c =>
  (.ok (), { c with sent := c.sent ++ [d] })

/-- `data[-2:]`, the hardcoded two-byte tail slice of `read_line`. -/
def pyLastTwo (l : List Nat) : List Nat := l.drop (l.length - 2)

/-- The accumulator loop of `read_line`: `while data[-2:] != line_ending:
data += self.serial.read(1)`.  Returns the accumulated bytes (terminator
included) and the unconsumed remainder of the stream. -/
def readLineBytesAux (t : List Nat) (acc : List Nat) :
    List Nat → Except Err (List Nat × List Nat)
  | [] => if pyLastTwo acc = t then .ok (acc, []) else .error .timeout
  | x :: rest =>
    if pyLastTwo acc = t then .ok (acc, x :: rest)
    else readLineBytesAux t (acc ++ [x]) rest

/-- A `line_ending` argument as Python sees it: the normal string case, or
the `set` literal that `dofile` mistakenly passes. -/
inductive LineEnding
  | str (s : List Nat)
  | strSet (ss : List (List Nat))

/-- `read_line(line_ending)`: encode the terminator (a `set` has no
`encode`, hence `attributeError`), accumulate one byte at a time until
`data[-2:]` equals it, strip the final two bytes and decode as UTF-8. -/
def read_line (le : LineEnding) : M (List Nat) := fun c =>
  match le with
  | .strSet _ => (.error .attributeError, c)
  | .str t =>
    match readLineBytesAux (utf8Encode t) [] c.input with
    | .error e => (.error e, c)
    | .ok (data, rest) =>
      match utf8Decode (data.take (data.length - 2)) with
      | some s => (.ok s, { c with input := rest })
      | none => (.error .unicodeDecodeError, { c with input := rest })

/-- `send_command(cmd)`: write `cmd + "\r\n"` UTF-8 encoded, then absorb the
echo with one default `read_line()`. -/
def send_command (cmd : List Nat) : M Unit := do
  pyWrite (utf8Encode (cmd ++ crlf))
  let _ ← read_line (.str crlf)
  pure ()

/-- Lowercase hex digit of a nibble, as CPython's `\xhh` escapes use. -/
def hexL (d : Nat) : Nat := if d < 10 then 48 + d else 87 + d

/-- One character of CPython's `repr` of a `str`, given the chosen quote
character `q`: backslash and the quote are backslash-escaped, `\t`/`\n`/`\r`
use their mnemonic escapes, other non-printable characters become lowercase
`\xhh`, printable characters are emitted verbatim.  (For code points above
U+00A0 CPython consults Unicode printability tables; the protocol only ever
builds commands from ASCII-range text, and this embedding emits such code
points verbatim.) -/
def pyReprChar (q c : Nat) : List Nat :=
  if c = 92 ∨ c = q then [92, c]
  else if c = 9 then [92, 116]
  else if c = 10 then [92, 110]
  else if c = 13 then [92, 114]
  else if c < 32 ∨ (127 ≤ c ∧ c ≤ 160) then [92, 120, hexL (c / 16), hexL (c % 16)]
  else [c]

/-- CPython's `repr` of a `str`: single quotes, unless the string contains a
single quote and no double quote, in which case double quotes. -/
def pyRepr (s : List Nat) : List Nat :=
  let q := if 39 ∈ s ∧ ¬ 34 ∈ s then 34 else 39
  [q] ++ s.flatMap (pyReprChar q) ++ [q]

/-- Is `c` the code of an ASCII decimal digit? -/
def isDigit (c : Nat) : Bool := 48 ≤ c ∧ c ≤ 57

/-- Is `c` ASCII whitespace (stripped by Python's `int`)? -/
def isSpaceChar (c : Nat) : Bool := c = 32 ∨ c = 9 ∨ c = 10 ∨ c = 13 ∨ c = 11 ∨ c = 12

/-- Numeric value of a digit string. -/
def digitsVal (ds : List Nat) : Int :=
  ds.foldl (fun a d => a * 10 + ((d : Int) - 48)) 0

/-- Python's `int(str)`: optional surrounding whitespace, optional sign,
then a non-empty run of decimal digits; anything else raises `ValueError`. -/
def pyInt (s : List Nat) : Except Err Int :=
  let t := ((s.dropWhile isSpaceChar).reverse.dropWhile isSpaceChar).reverse
  match t with
  | 45 :: ds => if ds ≠ [] ∧ ds.all isDigit then .ok (-(digitsVal ds)) else .error .valueError
  | 43 :: ds => if ds ≠ [] ∧ ds.all isDigit then .ok (digitsVal ds) else .error .valueError
  | ds => if ds ≠ [] ∧ ds.all isDigit then .ok (digitsVal ds) else .error .valueError

/-- Decimal rendering of an `Int`, as `"...".format(n)` produces. -/
def intToStr (i : Int) : List Nat := s2b (toString i)

/-- Run a fuelled loop body with enough fuel that only a source-level
infinite loop can exhaust it (each loop iteration of the source consumes at
least one pending input byte or fails). -/
def withFuel {α : Type} (f : Nat → M α) : M α := fun c => f (c.input.length + 1) c

/-- `bytes.decode("utf-8")` as a session step. -/
def pyDecodeUtf8 (b : List Nat) : M (List Nat) :=
  match utf8Decode b with
  | some s => mpure s
  | none => throwE .unicodeDecodeError

/-! ### The remote commands the session builds -/

def strFileClose : List Nat := s2b "file.close()"

def cmdOpenW (fn : List Nat) : List Nat :=
  s2b "=file.open(" ++ pyRepr fn ++ s2b ", 'w')"

def cmdOpenR (fn : List Nat) : List Nat :=
  s2b "=file.open(" ++ pyRepr fn ++ s2b ", 'r')"

def cmdSizeLookup (fn : List Nat) : List Nat :=
  s2b "=file.list()[" ++ pyRepr fn ++ s2b "]"

def cmdWriteBlock (blk : List Nat) : List Nat :=
  s2b "=file.write(" ++ pyRepr blk ++ s2b ")"

def cmdUartRead (blk : Int) : List Nat :=
  s2b "uart.write(0, file.read(" ++ intToStr blk ++ s2b "))"

def cmdDofile (fn : List Nat) : List Nat :=
  s2b "dofile(" ++ pyRepr fn ++ s2b ")"

def cmdRestart : List Nat := s2b "node.restart()"

/-- The adjacent-literal concatenation the source sends to count files. -/
def cmdCountFiles : List Nat :=
  s2b "do local cnt = 0;for k, v in pairs(file.list()) do    cnt = cnt + 1 end;    print(cnt);end"

/-- The adjacent-literal concatenation the source sends to list files. -/
def cmdListFiles : List Nat :=
  s2b "for f,s in pairs(file.list()) do    print(#f, f, s);end"

/-! ### Session operations -/

/-- The block loop of `write_file`: `while data: block = data[:block_size];
data = data[block_size:]; send =file.write(block); require response "true"`. -/
def writeLoop (bs : Nat) : Nat → List Nat → M Unit
  | 0, _ => throwE .hang
  | fl + 1, data =>
    if data = [] then mpure ()
    else do
      send_command (cmdWriteBlock (data.take bs))
      let resp ← read_line (.str crlf)
      if resp = s2b "true" then writeLoop bs fl (data.drop bs)
      else throwE (.writeFailed resp)

/-- `write_file(filename, data, block_size)` of the source. -/
def write_file (fn data : List Nat) (bs : Nat) : M Unit := do
  send_command strFileClose
  send_command (cmdOpenW fn)
  let r ← read_line (.str crlf)
  if r = s2b "nil" then throwE .couldNotOpenForWriting
  else do
    withFuel (fun fl => writeLoop bs fl data)
    send_command strFileClose

/-- The block loop of `read_file`: `while size: block = max(size,
block_size); size -= block; send uart.write(0, file.read(block)); data +=
serial.read(block)`.  Note the source's `max` (not `min`). -/
def readLoop (bs : Nat) : Nat → Int → List Nat → M (List Nat)
  | 0, _, _ => throwE .hang
  | fl + 1, size, acc =>
    if size = 0 then mpure acc
    else do
      let block := max size (bs : Int)
      send_command (cmdUartRead block)
      let chunk ← pyRead block.toNat
      readLoop bs fl (size - block) (acc ++ chunk)

/-- `read_file(filename, block_size)` of the source (which ends by decoding
the accumulated bytes as UTF-8 and has no trailing `file.close()`). -/
def read_file (fn : List Nat) (bs : Nat) : M (List Nat) := do
  send_command strFileClose
  send_command (cmdSizeLookup fn)
  let szLine ← read_line (.str crlf)
  if szLine = s2b "nil" then throwE .fileDoesNotExist
  else do
    let size ← liftE (pyInt szLine)
    send_command (cmdOpenR fn)
    let r ← read_line (.str crlf)
    if r ≠ s2b "true" then throwE .couldNotOpen
    else do
      let data ← withFuel (fun fl => readLoop bs fl size [])
      pyDecodeUtf8 data

/-- `line.partition("\t")` collapsed to its two used fields: the text before
the first tab, and the text after it (empty when there is no tab, exactly as
the source's use of the triple behaves). -/
def partitionTab : List Nat → List Nat × List Nat
  | [] => ([], [])
  | c :: rest =>
    if c = 9 then ([], rest)
    else
      let (before, after) := partitionTab rest
      (c :: before, after)

/-- Parsing of one listing response line: leading tab-delimited integer `N`,
next `N` characters as the filename, everything from position `N + 1` of the
remainder as the integer size.  (The source's slices take non-negative
indices here; a negative parsed length is outside the modelled behaviour.) -/
def parseListLine (l : List Nat) : Except Err (List Nat × Int) := do
  let (flStr, rest) := partitionTab l
  let n ← pyInt flStr
  let filename := rest.take n.toNat
  let size ← pyInt (rest.drop (n.toNat + 1))
  pure (filename, size)

/-- Python dict assignment `files[filename] = size` on an insertion-ordered
association list. -/
def dictSet (k : List Nat) (v : Int) : List (List Nat × Int) → List (List Nat × Int)
  | [] => [(k, v)]
  | (k', v') :: rest => if k' = k then (k, v) :: rest else (k', v') :: dictSet k v rest

/-- The `for file in range(num_files)` loop of `list_files`. -/
def listLoop : Nat → List (List Nat × Int) → M (List (List Nat × Int))
  | 0, files => mpure files
  | k + 1, files => do
    let l ← read_line (.str crlf)
    let (fn, sz) ← liftE (parseListLine l)
    listLoop k (dictSet fn sz files)

/-- `list_files()` of the source. -/
def list_files : M (List (List Nat × Int)) := do
  send_command cmdCountFiles
  let nLine ← read_line (.str crlf)
  let n ← liftE (pyInt nLine)
  send_command cmdListFiles
  listLoop n.toNat []

/-- `dofile(filename)` of the source.  Its final read passes the *set*
literal `{"> "}` as `line_ending`, exactly as the source does. -/
def dofile (fn : List Nat) : M (List Nat) := do
  send_command (cmdSizeLookup fn)
  let r ← read_line (.str crlf)
  if r = s2b "nil" then throwE .fileDoesNotExist
  else do
    send_command (cmdDofile fn)
    read_line (.strSet [s2b "> "])

/-- `restart()` of the source: send `node.restart()`, absorb one
prompt-terminated line, then absorb a second one inside
`try: ... except UnicodeDecodeError: pass`. -/
def restart : M Unit := fun c =>
  match send_command cmdRestart c with
  | (.error e, c) => (.error e, c)
  | (.ok _, c) =>
    match read_line (.str promptBytes) c with
    | (.error e, c) => (.error e, c)
    | (.ok _, c) =>
      match read_line (.str promptBytes) c with
      | (.ok _, c) => (.ok (), c)
      | (.error .unicodeDecodeError, c) => (.ok (), c)
      | (.error e, c) => (.error e, c)

/-! ### The literal encoder

`src/tests.py` imports and tests `lua_bytes` and `lua_string`, but the
provided `nodemcuload.py` does not contain them (its operations call
Python's `repr` instead), so the encoder is modelled from the spec. -/

/-- Uppercase hex digit of a nibble. -/
def hexU (d : Nat) : Nat := if d < 10 then 48 + d else 55 + d

/-- Encoding of a single byte inside a literal: printable ASCII 0x20–0x7E
other than `'` and `\` verbatim; `'` and `\` backslash-escaped; every other
byte as `\xHH` with two uppercase hex digits. -/
def luaEscByte (c : Nat) : List Nat :=
  if c = 39 then [92, 39]
  else if c = 92 then [92, 92]
  else if 32 ≤ c ∧ c ≤ 126 then [c]
  else [92, 120, hexU (c / 16), hexU (c % 16)]

/-- Modelled from the spec: the repository's literal encoder `lua_bytes`
(imported and tested by `src/tests.py` but missing from the provided
`nodemcuload.py`).  Spec §4.1: a single-quoted literal; printable ASCII
bytes 0x20–0x7E except `'` and `\` verbatim; `'` and `\` escaped as `\'` and
`\\`; all other byte values as `\xHH` with two uppercase hex digits; empty
input yields `''`. -/
def lua_bytes (b : List Nat) : List Nat := [39] ++ b.flatMap luaEscByte ++ [39]

/-- Is `c` a hex digit (either case)? -/
def isHexDigit (c : Nat) : Bool :=
  (48 ≤ c ∧ c ≤ 57) ∨ (65 ≤ c ∧ c ≤ 70) ∨ (97 ≤ c ∧ c ≤ 102)

/-- Is `c` an uppercase hex digit? -/
def isUpperHexDigit (c : Nat) : Bool := (48 ≤ c ∧ c ≤ 57) ∨ (65 ≤ c ∧ c ≤ 70)

/-- Value of a hex digit. -/
def hexVal (c : Nat) : Nat := if c < 58 then c - 48 else if c < 97 then c - 55 else c - 87

/-- Reversal of the literal's escapes (the inverse direction of the
round-trip law): `\'`, `\\` and `\xHH` map back to their bytes, every other
non-quote character stands for itself. -/
def luaUnescapeInner : List Nat → Option (List Nat)
  | [] => some []
  | c :: rest =>
    if c = 92 then
      match rest with
      | [] => none
      | d :: rest2 =>
        if d = 39 then (luaUnescapeInner rest2).map (39 :: ·)
        else if d = 92 then (luaUnescapeInner rest2).map (92 :: ·)
        else if d = 120 then
          match rest2 with
          | h :: l :: rest3 =>
            if isHexDigit h ∧ isHexDigit l then
              (luaUnescapeInner rest3).map ((hexVal h * 16 + hexVal l) :: ·)
            else none
          | _ => none
        else none
    else if c = 39 then none
    else (luaUnescapeInner rest).map (c :: ·)

/-- Strip the surrounding single quotes and reverse the escapes. -/
def luaUnescape (s : List Nat) : Option (List Nat) :=
  if 2 ≤ s.length ∧ s.head? = some 39 ∧ s.getLast? = some 39 then
    luaUnescapeInner ((s.drop 1).dropLast)
  else none

/-- Every code in the list is 7-bit ASCII. -/
def allAscii (l : List Nat) : Bool := l.all (· < 128)

/-! ### Channel script builders used by the theorems -/

/-- A response line as it appears on the wire: payload plus CRLF. -/
def lineCRLF (s : List Nat) : List Nat := s ++ crlf

/-- The wire form of a command: UTF-8 encoded, CRLF-terminated; this is the
exact payload `send_command` writes. -/
def wire (cmd : List Nat) : List Nat := utf8Encode (cmd ++ crlf)

/-- The channel script of `tests.py::test_read_file` adjusted to what the
source actually requests: after the size lookup reports `3`, the source asks
for a single block of `max(3, 2) = 3` bytes. -/
def c1Script : List Nat :=
  lineCRLF (s2b "file.close()") ++ lineCRLF (s2b "=file.list()['test.txt']") ++
  lineCRLF (s2b "3") ++ lineCRLF (s2b "=file.open('test.txt', 'r')") ++
  lineCRLF (s2b "true") ++ lineCRLF (s2b "uart.write(0, file.read(3))") ++ [1, 2, 3]

/-- A channel holding a size lookup answer `1`, a successful open, and a
single raw content byte `0xFF`. -/
def c9Script : List Nat :=
  lineCRLF (s2b "file.close()") ++ lineCRLF (s2b "=file.list()['f']") ++
  lineCRLF (s2b "1") ++ lineCRLF (s2b "=file.open('f', 'r')") ++
  lineCRLF (s2b "true") ++ lineCRLF (s2b "uart.write(0, file.read(1))") ++ [255]

/-- The channel script of `tests.py::test_dofile`: the file exists (size
`123`) and the remote prints `hello!` followed by the prompt. -/
def c4Script : List Nat :=
  lineCRLF (s2b "=file.list()['test.lua']") ++ lineCRLF (s2b "123") ++
  lineCRLF (s2b "dofile('test.lua')") ++ s2b "hello!" ++ crlf ++ promptBytes

/-- A listing exchange whose body lines are exactly the ones the claim
quotes: `7\tfoo.txt123` and `5\t\t.tab0`. -/
def c3BadScript : List Nat :=
  lineCRLF cmdCountFiles ++ lineCRLF (s2b "2") ++ lineCRLF cmdListFiles ++
  lineCRLF (s2b "7\tfoo.txt123") ++ lineCRLF (s2b "5\t\t.tab0")

/-- The same listing exchange with the tab the device's `print(#f, f, s)`
actually emits between the filename and the size. -/
def c3GoodScript : List Nat :=
  lineCRLF cmdCountFiles ++ lineCRLF (s2b "2") ++ lineCRLF cmdListFiles ++
  lineCRLF (s2b "7\tfoo.txt\t123") ++ lineCRLF (s2b "5\t\t.tab\t0")

/-! ### Supporting lemmas for the literal encoder -/

lemma hexU_digit : ∀ d < 16, isHexDigit (hexU d) = true ∧ hexVal (hexU d) = d := by decide

lemma luaUnescapeInner_cons (c : Nat) (rest : List Nat) (h92 : c ≠ 92) (h39 : c ≠ 39) :
    luaUnescapeInner (c :: rest) = (luaUnescapeInner rest).map (c :: ·) := by
  rw [luaUnescapeInner.eq_def]
  simp [h92, h39]

lemma luaUnescapeInner_esc (c : Nat) (hc : c < 256) (rest : List Nat) :
    luaUnescapeInner (luaEscByte c ++ rest) = (luaUnescapeInner rest).map (c :: ·) := by
  unfold luaEscByte
  split_ifs with h1 h2 h3
  · subst h1
    show luaUnescapeInner (92 :: 39 :: rest) = _
    rw [luaUnescapeInner.eq_def]; simp
  · subst h2
    show luaUnescapeInner (92 :: 92 :: rest) = _
    rw [luaUnescapeInner.eq_def]; simp
  · rw [List.cons_append, List.nil_append] at *
    exact luaUnescapeInner_cons c rest h2 h1
  · have hdiv : c / 16 < 16 := by omega
    have hmod : c % 16 < 16 := by omega
    obtain ⟨hh1, hv1⟩ := hexU_digit _ hdiv
    obtain ⟨hh2, hv2⟩ := hexU_digit _ hmod
    have hc' : hexVal (hexU (c / 16)) * 16 + hexVal (hexU (c % 16)) = c := by
      rw [hv1, hv2]; omega
    show luaUnescapeInner (92 :: 120 :: hexU (c / 16) :: hexU (c % 16) :: rest) = _
    rw [luaUnescapeInner.eq_def]
    simp [hh1, hh2, hc']

lemma luaUnescapeInner_roundtrip (b : List Nat) (hb : ∀ c ∈ b, c < 256) :
    luaUnescapeInner (b.flatMap luaEscByte) = some b := by
  induction b with
  | nil => rfl
  | cons c b ih =>
    rw [List.flatMap_cons, luaUnescapeInner_esc c (hb c (by simp)) _,
      ih (fun x hx => hb x (by simp [hx]))]
    rfl

lemma allAscii_luaEsc (b : List Nat) (hb : ∀ c ∈ b, c < 256) :
    (b.flatMap luaEscByte).all (· < 128) = true := by
  induction b with
  | nil => rfl
  | cons c b ih =>
    rw [List.flatMap_cons, List.all_append]
    have h1 : (luaEscByte c).all (· < 128) = true :=
      (by decide : ∀ c < 256, (luaEscByte c).all (· < 128) = true) c (hb c (by simp))
    rw [h1, ih (fun x hx => hb x (by simp [hx]))]
    rfl

/-! ### Claim theorems: the literal encoder -/

/-- Claim C2: for every byte sequence `b`, the literal produced for `b` is
ASCII, single-quoted (it begins and ends with `'`), and reversing its
escapes yields exactly `b` (round-trip law). -/
theorem c2_lua_bytes_roundtrip (b : List Nat) (hb : ∀ c ∈ b, c < 256) :
    allAscii (lua_bytes b) = true ∧ (lua_bytes b).head? = some 39 ∧
    (lua_bytes b).getLast? = some 39 ∧ luaUnescape (lua_bytes b) = some b := by
  have hlast : (lua_bytes b).getLast? = some 39 := by
    show ([39] ++ b.flatMap luaEscByte ++ [39]).getLast? = some 39
    rw [show [39] ++ b.flatMap luaEscByte ++ [39]
        = ([39] ++ b.flatMap luaEscByte) ++ [39] by simp, List.getLast?_concat]
  refine ⟨?_, by simp [lua_bytes], hlast, ?_⟩
  · simp [allAscii, lua_bytes, List.all_append, allAscii_luaEsc b hb]
  · unfold luaUnescape
    rw [if_pos ⟨by simp [lua_bytes], by simp [lua_bytes], hlast⟩]
    have hdrop : ((lua_bytes b).drop 1).dropLast = b.flatMap luaEscByte := by
      have h1 : ([39] ++ b.flatMap luaEscByte ++ [39]).drop 1
          = b.flatMap luaEscByte ++ [39] := by simp
      show (([39] ++ b.flatMap luaEscByte ++ [39]).drop 1).dropLast = _
      rw [h1, List.dropLast_concat]
    rw [hdrop, luaUnescapeInner_roundtrip b hb]

theorem c2_witness : (∀ c ∈ [0, 39, 92, 65, 255], c < 256) ∧
    (allAscii (lua_bytes [0, 39, 92, 65, 255]) = true ∧
     (lua_bytes [0, 39, 92, 65, 255]).head? = some 39 ∧
     (lua_bytes [0, 39, 92, 65, 255]).getLast? = some 39 ∧
     luaUnescape (lua_bytes [0, 39, 92, 65, 255]) = some [0, 39, 92, 65, 255]) :=
  ⟨by decide, c2_lua_bytes_roundtrip [0, 39, 92, 65, 255] (by decide)⟩

/-- Claim C5: the literal encoding emits printable ASCII bytes 0x20–0x7E
verbatim except `'` and `\` which are escaped as `\'` and `\\`, encodes
every byte outside 0x20–0x7E as `\xHH` with exactly two uppercase hex
digits, and encodes empty input as `''`. -/
theorem c5_lua_bytes_shape :
    lua_bytes [] = [39, 39] ∧
    (∀ b : List Nat, lua_bytes b = [39] ++ b.flatMap luaEscByte ++ [39]) ∧
    (∀ c < 256,
      ((32 ≤ c ∧ c ≤ 126 ∧ c ≠ 39 ∧ c ≠ 92) → luaEscByte c = [c]) ∧
      ((c < 32 ∨ 126 < c) →
        luaEscByte c = [92, 120, hexU (c / 16), hexU (c % 16)] ∧
        isUpperHexDigit (hexU (c / 16)) = true ∧
        isUpperHexDigit (hexU (c % 16)) = true)) ∧
    luaEscByte 39 = [92, 39] ∧ luaEscByte 92 = [92, 92] :=
  ⟨by decide, fun _ => rfl, by decide, by decide, by decide⟩

theorem c5_witness :
    luaEscByte 0 = [92, 120, hexU 0, hexU 0] ∧ luaEscByte 65 = [65] :=
  ⟨((c5_lua_bytes_shape.2.2.1 0 (by decide)).2 (by decide)).1,
   (c5_lua_bytes_shape.2.2.1 65 (by decide)).1 (by decide)⟩

/-! ### Claim theorems: concrete runs exhibiting the source's bugs -/

/-- Claim C1 (refuting evaluation): with a size lookup reporting 3 and
`block_size` 2, `read_file` issues a single raw read of `max(3, 2) = 3`
bytes — one `uart.write(0, file.read(3))` request — not two block reads of
lengths 2 and 1 as the claim (and `tests.py::test_read_file`) requires: the
source computes each block as `max(size, block_size)`, not the minimum. -/
theorem c1_read_file_uses_max_not_min :
    read_file (s2b "test.txt") 2 ⟨c1Script, []⟩ =
      (.ok [1, 2, 3], ⟨[], [wire strFileClose, wire (cmdSizeLookup (s2b "test.txt")),
        wire (cmdOpenR (s2b "test.txt")), wire (cmdUartRead 3)]⟩) := by decide

/-- Claim C9 (refuting evaluation): reading a 1-byte file whose content is
the raw byte `0xFF` raises `UnicodeDecodeError` instead of returning the
byte: the source ends with `data.decode("utf-8")`, so the content is not
returned unmodified for all byte values. -/
theorem c9_read_file_decodes_utf8 :
    (read_file (s2b "f") 1 ⟨c9Script, []⟩).1 = .error .unicodeDecodeError := by decide

/-- Claim C4 (refuting evaluation): for an existing file, `dofile` fails
with an `AttributeError` before reading any output: the source passes the
set literal `{"> "}` — not the string `"> "` — as `read_line`'s terminator,
and a set has no `encode` attribute.  The pending output `hello!\r\n> `
is left unread. -/
theorem c4_dofile_passes_set :
    dofile (s2b "test.lua") ⟨c4Script, []⟩ =
      (.error .attributeError, ⟨s2b "hello!" ++ crlf ++ promptBytes,
        [wire (cmdSizeLookup (s2b "test.lua")), wire (cmdDofile (s2b "test.lua"))]⟩) := by
  decide

/-- Claim C8 (refuting evaluation): on the channel of
`tests.py::test_read_line` (`"ba-ba-black sheep bar baz"` with terminator
`"bar"`), `read_line` consumes the entire channel and times out instead of
returning `"ba-ba-black sheep "` and leaving `" baz"` unread: the source
compares and strips a hardcoded two-byte tail `data[-2:]`, which can never
equal a three-byte terminator. -/
theorem c8_read_line_hardcodes_two_bytes :
    read_line (.str (s2b "bar")) ⟨s2b "ba-ba-black sheep bar baz", []⟩ =
      (.error .timeout, ⟨s2b "ba-ba-black sheep bar baz", []⟩) := by decide

/-- Claim C3 (counterexample): on the exact body lines the claim quotes
(`7\tfoo.txt123` and `5\t\t.tab0`), `list_files` does not produce the
mapping `{"foo.txt": 123, "\t.tab": 0}` — it raises `ValueError`:
the parser takes the size from position `N + 1` of the remainder (skipping
the tab `print` emits after the filename), so `7\tfoo.txt123` would parse
to size 23, and `5\t\t.tab0` leaves the empty string for `int()`. -/
theorem c3_spec_lines_counterexample :
    list_files ⟨c3BadScript, []⟩ =
      (.error .valueError, ⟨[], [wire cmdCountFiles, wire cmdListFiles]⟩) ∧
    (list_files ⟨c3BadScript, []⟩).1 ≠
      .ok [(s2b "foo.txt", 123), (s2b "\t.tab", 0)] := by
  refine ⟨by decide, ?_⟩
  intro h
  rw [(by decide : (list_files ⟨c3BadScript, []⟩).1 = .error .valueError)] at h
  exact Except.noConfusion h


lemma partitionTab_split (a b : List Nat) (ha : 9 ∉ a) :
    partitionTab (a ++ 9 :: b) = (a, b) := by
  induction a with
  | nil => simp [partitionTab]
  | cons c a ih =>
    have hc : c ≠ 9 := fun h => ha (by simp [h])
    have ha' : 9 ∉ a := fun h => ha (by simp [h])
    simp [partitionTab, hc, ih ha']

/-- Claim C3 (amended): `list_files` reads exactly `num_files` response
lines, parsing each as a leading tab-delimited integer `N`, the first `N`
characters of the remainder as the filename, and everything after the
following tab as the integer size; the claim's quoted scenario holds once
its body lines carry the tab that `print(#f, f, s)` emits between name and
size: `7\tfoo.txt\t123` and `5\t\t.tab\t0` parse to
`{"foo.txt": 123, "\t.tab": 0}`. -/
theorem c3_list_files_amended :
    (∀ (numStr name sizeStr : List Nat) (N s : Int), 9 ∉ numStr → pyInt numStr = .ok N →
      N.toNat = name.length → pyInt sizeStr = .ok s →
      parseListLine (numStr ++ [9] ++ name ++ [9] ++ sizeStr) = .ok (name, s)) ∧
    list_files ⟨c3GoodScript, []⟩ =
      (.ok [(s2b "foo.txt", 123), (s2b "\t.tab", 0)],
       ⟨[], [wire cmdCountFiles, wire cmdListFiles]⟩) := by
  constructor
  · intro numStr name sizeStr N s h9 hN hlen hs
    have hsplit : partitionTab (numStr ++ 9 :: (name ++ 9 :: sizeStr))
        = (numStr, name ++ 9 :: sizeStr) := partitionTab_split numStr _ h9
    have htake : (name ++ 9 :: sizeStr).take N.toNat = name := by
      rw [hlen]; exact List.take_left name (9 :: sizeStr)
    have hdrop : (name ++ 9 :: sizeStr).drop (N.toNat + 1) = sizeStr := by
      rw [hlen, show name ++ 9 :: sizeStr = (name ++ [9]) ++ sizeStr by simp,
        show name.length + 1 = (name ++ [9]).length by simp, List.drop_left]
    have hEq : numStr ++ [9] ++ name ++ [9] ++ sizeStr
        = numStr ++ 9 :: (name ++ 9 :: sizeStr) := by simp
    unfold parseListLine
    rw [hEq, hsplit]
    show (do
      let n ← pyInt numStr
      let size ← pyInt ((name ++ 9 :: sizeStr).drop (n.toNat + 1))
      pure ((name ++ 9 :: sizeStr).take n.toNat, size) :
        Except Err (List Nat × Int)) = Except.ok (name, s)
    rw [hN]
    show (do
      let size ← pyInt ((name ++ 9 :: sizeStr).drop (N.toNat + 1))
      pure ((name ++ 9 :: sizeStr).take N.toNat, size) :
        Except Err (List Nat × Int)) = Except.ok (name, s)
    rw [hdrop, hs, htake]
    rfl
  · decide

theorem c3_list_files_amended_witness :
    (9 ∉ s2b "7") ∧ pyInt (s2b "7") = .ok 7 ∧ (7:Int).toNat = (s2b "foo.txt").length ∧
    pyInt (s2b "123") = .ok 123 ∧
    parseListLine (s2b "7" ++ [9] ++ s2b "foo.txt" ++ [9] ++ s2b "123")
      = .ok (s2b "foo.txt", 123) :=
  ⟨by decide, by decide, by decide, by decide,
   c3_list_files_amended.1 (s2b "7") (s2b "foo.txt") (s2b "123") 7 123
     (by decide) (by decide) (by decide) (by decide)⟩



/-- Does the pair `a, b` occur adjacently in the list? -/
def hasPair (a b : Nat) : List Nat → Bool
  | x :: y :: rest => (x = a ∧ y = b) || hasPair a b (y :: rest)
  | _ => false

lemma hasPair_cons_of (a b x : Nat) (l : List Nat) (h : hasPair a b l = true) :
    hasPair a b (x :: l) = true := by
  cases l with
  | nil => simp [hasPair] at h
  | cons y l' => simp [hasPair] at h ⊢; tauto

lemma hasPair_concat_pair (a b : Nat) (xs : List Nat) :
    hasPair a b (xs ++ [a, b]) = true := by
  induction xs with
  | nil => simp [hasPair]
  | cons x xs ih => exact hasPair_cons_of a b x _ ih

lemma hasPair_append_left (a b : Nat) (l1 l2 : List Nat) (h : hasPair a b l1 = true) :
    hasPair a b (l1 ++ l2) = true := by
  induction l1 with
  | nil => simp [hasPair] at h
  | cons x t ih =>
    cases t with
    | nil => simp [hasPair] at h
    | cons y t' =>
      simp [hasPair] at h
      rcases h with h | h
      · simp [hasPair, h]
      · exact hasPair_cons_of a b x _ (ih h)

lemma pyLastTwo_concat₂ (l : List Nat) (x y : Nat) :
    pyLastTwo (l ++ [x, y]) = [x, y] := by
  unfold pyLastTwo
  rw [show (l ++ [x, y]).length - 2 = l.length by simp, List.drop_left]

lemma pyLastTwo_eq_split (l : List Nat) (a b : Nat) (h : pyLastTwo l = [a, b]) :
    ∃ xs, l = xs ++ [a, b] := by
  refine ⟨l.take (l.length - 2), ?_⟩
  conv_lhs => rw [← List.take_append_drop (l.length - 2) l]
  unfold pyLastTwo at h
  rw [h]

lemma pyLastTwo_ne_of_no_pair (a b : Nat) (l : List Nat) (h : hasPair a b l = false) :
    pyLastTwo l ≠ [a, b] := by
  intro hEq
  obtain ⟨xs, rfl⟩ := pyLastTwo_eq_split l a b hEq
  rw [hasPair_concat_pair] at h
  exact Bool.noConfusion h

lemma pyLastTwo_concat_ne (a b : Nat) (hab : a ≠ b) (l : List Nat) :
    pyLastTwo (l ++ [a]) ≠ [a, b] := by
  intro hEq
  obtain ⟨xs, hsplit⟩ := pyLastTwo_eq_split (l ++ [a]) a b hEq
  have : some a = some b := by
    rw [← List.getLast?_concat l, hsplit, show xs ++ [a, b] = (xs ++ [a]) ++ [b] by simp,
      List.getLast?_concat]
  exact hab (Option.some.inj this)

lemma readLineBytesAux_done (t acc input : List Nat) (h : pyLastTwo acc = t) :
    readLineBytesAux t acc input = .ok (acc, input) := by
  cases input <;> simp [readLineBytesAux, h]

lemma readLineBytesAux_consume (a b : Nat) (hab : a ≠ b) (e acc rest : List Nat)
    (hp : hasPair a b (acc ++ e) = false) :
    readLineBytesAux [a, b] acc (e ++ [a, b] ++ rest) = .ok (acc ++ e ++ [a, b], rest) := by
  induction e generalizing acc with
  | nil =>
    rw [List.append_nil] at hp
    have h1 : pyLastTwo acc ≠ [a, b] := pyLastTwo_ne_of_no_pair a b acc hp
    have h2 : pyLastTwo (acc ++ [a]) ≠ [a, b] := pyLastTwo_concat_ne a b hab acc
    show readLineBytesAux [a, b] acc (a :: b :: rest) = _
    simp only [readLineBytesAux, if_neg h1, if_neg h2]
    rw [readLineBytesAux_done _ _ _ (by rw [show acc ++ [a] ++ [b] = acc ++ [a, b] by simp,
      pyLastTwo_concat₂])]
    simp
  | cons x e' ih =>
    have haccf : hasPair a b acc = false := by
      by_contra hcon
      rw [hasPair_append_left a b acc (x :: e') (by revert hcon; cases hasPair a b acc <;> simp)]
        at hp
      exact Bool.noConfusion hp
    have h1 : pyLastTwo acc ≠ [a, b] := pyLastTwo_ne_of_no_pair a b acc haccf
    show readLineBytesAux [a, b] acc (x :: (e' ++ [a, b] ++ rest)) = _
    simp only [readLineBytesAux, if_neg h1]
    rw [ih (acc ++ [x]) (by rw [show acc ++ [x] ++ e' = acc ++ (x :: e') by simp]; exact hp)]
    simp


lemma bind_eq_mbind {α β : Type} (x : M α) (f : α → M β) : x >>= f = mbind x f := rfl

lemma pure_eq_mpure {α : Type} (a : α) : (pure a : M α) = mpure a := rfl

lemma mbind_eval {α β : Type} (x : M α) (f : α → M β) (c : Chan) :
    mbind x f c = match x c with
      | (.ok a, c') => f a c'
      | (.error e, c') => (.error e, c') := rfl

/-- Evaluation of `read_line` on a channel whose pending input is a
well-formed line: a terminator-pair-free body `e`, the two-byte terminator,
then the rest. -/
lemma read_line_some (t : List Nat) (a b : Nat) (hab : a ≠ b)
    (hEnc : utf8Encode t = [a, b]) (e rest d : List Nat)
    (hp : hasPair a b e = false) (hd : utf8Decode e = some d) (c : Chan)
    (hc : c.input = e ++ [a, b] ++ rest) :
    read_line (.str t) c = (.ok d, { c with input := rest }) := by
  show (match readLineBytesAux (utf8Encode t) [] c.input with
    | Except.error e => ((Except.error e : Except Err (List Nat)), c)
    | Except.ok (data, rest) =>
      match utf8Decode (data.take (data.length - 2)) with
      | some s => (Except.ok s, { c with input := rest })
      | none => (Except.error Err.unicodeDecodeError, { c with input := rest })) = _
  rw [hEnc, hc, readLineBytesAux_consume a b hab e [] rest (by simpa using hp)]
  have hstrip : (([] ++ e ++ [a, b]).take (([] ++ e ++ [a, b]).length - 2)) = e := by
    simp only [List.nil_append]
    rw [show (e ++ [a, b]).length - 2 = e.length by simp, List.take_left]
  simp only [hstrip, hd]

/-- Evaluation of `read_line` when the stripped line body fails to decode:
the error is raised only after the bytes have been consumed. -/
lemma read_line_none (t : List Nat) (a b : Nat) (hab : a ≠ b)
    (hEnc : utf8Encode t = [a, b]) (e rest : List Nat)
    (hp : hasPair a b e = false) (hd : utf8Decode e = none) (c : Chan)
    (hc : c.input = e ++ [a, b] ++ rest) :
    read_line (.str t) c = (.error .unicodeDecodeError, { c with input := rest }) := by
  show (match readLineBytesAux (utf8Encode t) [] c.input with
    | Except.error e => ((Except.error e : Except Err (List Nat)), c)
    | Except.ok (data, rest) =>
      match utf8Decode (data.take (data.length - 2)) with
      | some s => (Except.ok s, { c with input := rest })
      | none => (Except.error Err.unicodeDecodeError, { c with input := rest })) = _
  rw [hEnc, hc, readLineBytesAux_consume a b hab e [] rest (by simpa using hp)]
  have hstrip : (([] ++ e ++ [a, b]).take (([] ++ e ++ [a, b]).length - 2)) = e := by
    simp only [List.nil_append]
    rw [show (e ++ [a, b]).length - 2 = e.length by simp, List.take_left]
  simp only [hstrip, hd]

/-- Evaluation of `send_command`: the wire form of the command is logged and
the echo line (CRLF-pair-free, decodable) is absorbed. -/
lemma send_command_ok (cmd e rest : List Nat) (hp : hasPair 13 10 e = false)
    (d : List Nat) (hd : utf8Decode e = some d) (c : Chan)
    (hc : c.input = e ++ crlf ++ rest) :
    send_command cmd c = (.ok (), ⟨rest, c.sent ++ [wire cmd]⟩) := by
  show mbind (pyWrite (utf8Encode (cmd ++ crlf)))
    (fun _ => mbind (read_line (.str crlf)) (fun _ => mpure ())) c = _
  rw [mbind_eval]
  have h1 : pyWrite (utf8Encode (cmd ++ crlf)) c
      = (.ok (), ⟨c.input, c.sent ++ [wire cmd]⟩) := rfl
  rw [h1]
  show mbind (read_line (.str crlf)) (fun _ => mpure ()) ⟨c.input, c.sent ++ [wire cmd]⟩ = _
  rw [mbind_eval, read_line_some crlf 13 10 (by decide) rfl e rest d hp hd
    ⟨c.input, c.sent ++ [wire cmd]⟩ hc]
  rfl


/-- Claim C7: `restart` tolerates and discards a decode failure on the
second prompt-terminated read only — the post-reboot garbage `g` is
consumed and discarded whether or not it decodes; a decode failure on the
first prompt-terminated read propagates to the caller. -/
theorem c7_restart_decode_tolerance :
    (∀ e0 e1 g rest d0 d1 : List Nat,
      hasPair 13 10 e0 = false → utf8Decode e0 = some d0 →
      hasPair 62 32 e1 = false → utf8Decode e1 = some d1 →
      hasPair 62 32 g = false →
      restart ⟨e0 ++ crlf ++ e1 ++ promptBytes ++ g ++ promptBytes ++ rest, []⟩ =
        (.ok (), ⟨rest, [wire cmdRestart]⟩)) ∧
    (∀ e0 b1 rest d0 : List Nat,
      hasPair 13 10 e0 = false → utf8Decode e0 = some d0 →
      hasPair 62 32 b1 = false → utf8Decode b1 = none →
      restart ⟨e0 ++ crlf ++ b1 ++ promptBytes ++ rest, []⟩ =
        (.error .unicodeDecodeError, ⟨rest, [wire cmdRestart]⟩)) := by
  constructor
  · intro e0 e1 g rest d0 d1 hp0 hd0 hp1 hd1 hpg
    set c0 : Chan := ⟨e0 ++ crlf ++ e1 ++ promptBytes ++ g ++ promptBytes ++ rest, []⟩ with hc0
    have h1 : send_command cmdRestart c0
        = (.ok (), ⟨e1 ++ promptBytes ++ (g ++ promptBytes ++ rest), [wire cmdRestart]⟩) := by
      rw [send_command_ok cmdRestart e0 (e1 ++ promptBytes ++ (g ++ promptBytes ++ rest))
        hp0 d0 hd0 c0 (by simp [hc0, crlf])]
      rfl
    set c1 : Chan := ⟨e1 ++ promptBytes ++ (g ++ promptBytes ++ rest), [wire cmdRestart]⟩ with hc1
    have h2 : read_line (.str promptBytes) c1 = (.ok d1, ⟨g ++ promptBytes ++ rest, [wire cmdRestart]⟩) := by
      rw [read_line_some promptBytes 62 32 (by decide) rfl e1 (g ++ promptBytes ++ rest) d1
        hp1 hd1 c1 (by simp [hc1, promptBytes])]
    set c2 : Chan := ⟨g ++ promptBytes ++ rest, [wire cmdRestart]⟩ with hc2
    unfold restart
    rw [h1]
    show (match read_line (.str promptBytes) c1 with
      | (Except.error e, c) => ((Except.error e : Except Err Unit), c)
      | (Except.ok _, c) =>
        match read_line (.str promptBytes) c with
        | (Except.ok _, c) => (Except.ok (), c)
        | (Except.error Err.unicodeDecodeError, c) => (Except.ok (), c)
        | (Except.error e, c) => (Except.error e, c)) = _
    rw [h2]
    show (match read_line (.str promptBytes) c2 with
      | (Except.ok _, c) => ((Except.ok () : Except Err Unit), c)
      | (Except.error Err.unicodeDecodeError, c) => (Except.ok (), c)
      | (Except.error e, c) => (Except.error e, c)) = _
    rcases hg : utf8Decode g with _ | dg
    · rw [read_line_none promptBytes 62 32 (by decide) rfl g rest hpg hg c2 (by simp [hc2, promptBytes])]
    · rw [read_line_some promptBytes 62 32 (by decide) rfl g rest dg hpg hg c2 (by simp [hc2, promptBytes])]
  · intro e0 b1 rest d0 hp0 hd0 hp1 hd1
    set c0 : Chan := ⟨e0 ++ crlf ++ b1 ++ promptBytes ++ rest, []⟩ with hc0
    have h1 : send_command cmdRestart c0
        = (.ok (), ⟨b1 ++ promptBytes ++ rest, [wire cmdRestart]⟩) := by
      rw [send_command_ok cmdRestart e0 (b1 ++ promptBytes ++ rest)
        hp0 d0 hd0 c0 (by simp [hc0, crlf])]
      rfl
    set c1 : Chan := ⟨b1 ++ promptBytes ++ rest, [wire cmdRestart]⟩ with hc1
    have h2 : read_line (.str promptBytes) c1
        = (.error .unicodeDecodeError, ⟨rest, [wire cmdRestart]⟩) := by
      rw [read_line_none promptBytes 62 32 (by decide) rfl b1 rest hp1 hd1 c1 (by simp [hc1, promptBytes])]
    unfold restart
    rw [h1]
    show (match read_line (.str promptBytes) c1 with
      | (Except.error e, c) => ((Except.error e : Except Err Unit), c)
      | (Except.ok _, c) =>
        match read_line (.str promptBytes) c with
        | (Except.ok _, c) => (Except.ok (), c)
        | (Except.error Err.unicodeDecodeError, c) => (Except.ok (), c)
        | (Except.error e, c) => (Except.error e, c)) = _
    rw [h2]

theorem c7_witness :
    restart ⟨s2b "node.restart()" ++ crlf ++ [] ++ promptBytes ++
        ([0xDE, 0xAD, 0xBE, 0xEF, 0xFF] ++ crlf ++ s2b "NodeMCU 1.4") ++ promptBytes ++ [],
      []⟩ = (.ok (), ⟨[], [wire cmdRestart]⟩) ∧
    restart ⟨s2b "node.restart()" ++ crlf ++ [0xFF] ++ promptBytes ++ [7, 7], []⟩ =
      (.error .unicodeDecodeError, ⟨[7, 7], [wire cmdRestart]⟩) :=
  ⟨c7_restart_decode_tolerance.1 (s2b "node.restart()") []
      ([0xDE, 0xAD, 0xBE, 0xEF, 0xFF] ++ crlf ++ s2b "NodeMCU 1.4") [] (s2b "node.restart()") []
      (by decide) (by decide) (by decide) (by decide) (by decide),
   c7_restart_decode_tolerance.2 (s2b "node.restart()") [0xFF] [7, 7] (s2b "node.restart()")
      (by decide) (by decide) (by decide) (by decide)⟩



lemma mbind_ok {α β : Type} (x : M α) (f : α → M β) (c c' : Chan) (a : α)
    (h : x c = (.ok a, c')) : mbind x f c = f a c' := by
  rw [mbind_eval, h]

lemma mbind_error {α β : Type} (x : M α) (f : α → M β) (c c' : Chan) (e : Err)
    (h : x c = (.error e, c')) : mbind x f c = (.error e, c') := by
  rw [mbind_eval, h]

/-- The channel script of `k` successful write blocks: for each, an echo
line and a `true` response line. -/
def goodBlocks (es : List (List Nat)) : List Nat :=
  es.flatMap (fun e => lineCRLF e ++ lineCRLF (s2b "true"))

lemma read_line_sent (le : LineEnding) (c : Chan) :
    ((read_line le c).2).sent = c.sent := by
  cases le with
  | strSet ss => rfl
  | str t =>
    show ((match readLineBytesAux (utf8Encode t) [] c.input with
      | Except.error e => ((Except.error e : Except Err (List Nat)), c)
      | Except.ok (data, rest) =>
        match utf8Decode (data.take (data.length - 2)) with
        | some s => (Except.ok s, { c with input := rest })
        | none => (Except.error Err.unicodeDecodeError, { c with input := rest })).2).sent
      = c.sent
    rcases h : readLineBytesAux (utf8Encode t) [] c.input with e | ⟨data, rest⟩
    · rfl
    · show ((match utf8Decode (data.take (data.length - 2)) with
        | some s => ((Except.ok s : Except Err (List Nat)), { c with input := rest })
        | none => (Except.error Err.unicodeDecodeError, { c with input := rest })).2).sent
        = c.sent
      rcases hd : utf8Decode (data.take (data.length - 2)) with _ | s <;> rfl

lemma send_command_sent (cmd : List Nat) (c : Chan) :
    ((send_command cmd c).2).sent = c.sent ++ [wire cmd] := by
  show ((mbind (pyWrite (utf8Encode (cmd ++ crlf)))
    (fun _ => mbind (read_line (.str crlf)) (fun _ => mpure ())) c).2).sent
    = c.sent ++ [wire cmd]
  rw [mbind_ok _ _ c ⟨c.input, c.sent ++ [wire cmd]⟩ () rfl]
  rcases h2 : read_line (.str crlf) ⟨c.input, c.sent ++ [wire cmd]⟩ with ⟨x, c2⟩
  have hs : c2.sent = c.sent ++ [wire cmd] := by
    have := read_line_sent (.str crlf) ⟨c.input, c.sent ++ [wire cmd]⟩
    rw [h2] at this
    exact this
  cases x with
  | error e => rw [mbind_error _ _ _ _ _ h2]; exact hs
  | ok v => rw [mbind_ok _ _ _ _ _ h2]; exact hs

lemma writeLoop_sent (bs : Nat) (fuel : Nat) (data : List Nat) (c : Chan) :
    ∃ u, ((writeLoop bs fuel data c).2).sent = c.sent ++ u := by
  induction fuel generalizing data c with
  | zero => exact ⟨[], by simp [writeLoop, throwE]⟩
  | succ fl ih =>
    by_cases hdata : data = []
    · exact ⟨[], by simp [writeLoop, hdata, mpure]⟩
    · simp only [writeLoop, if_neg hdata, bind_eq_mbind]
      rcases h1 : send_command (cmdWriteBlock (data.take bs)) c with ⟨x1, c1⟩
      have hs1 : c1.sent = c.sent ++ [wire (cmdWriteBlock (data.take bs))] := by
        have := send_command_sent (cmdWriteBlock (data.take bs)) c
        rw [h1] at this
        exact this
      cases x1 with
      | error e => rw [mbind_error _ _ _ _ _ h1]; exact ⟨_, hs1⟩
      | ok v =>
        rw [mbind_ok _ _ _ _ _ h1]
        rcases h2 : read_line (.str crlf) c1 with ⟨x2, c2⟩
        have hs2 : c2.sent = c1.sent := by
          have := read_line_sent (.str crlf) c1
          rw [h2] at this
          exact this
        cases x2 with
        | error e => rw [mbind_error _ _ _ _ _ h2]; exact ⟨_, by rw [hs2, hs1]⟩
        | ok resp =>
          rw [mbind_ok _ _ _ _ _ h2]
          by_cases hresp : resp = s2b "true"
          · rw [if_pos hresp]
            obtain ⟨u, hu⟩ := ih (data.drop bs) c2
            exact ⟨_, by rw [hu, hs2, hs1, List.append_assoc]⟩
          · rw [if_neg hresp]
            exact ⟨_, by rw [show ((throwE (Err.writeFailed resp) : M Unit) c2).2 = c2 from rfl,
              hs2, hs1]⟩


lemma writeLoop_fail (bs : Nat) (es : List (List Nat)) (data ef resp r rest : List Nat)
    (fuel : Nat) (c : Chan)
    (hes : ∀ e ∈ es, hasPair 13 10 e = false ∧ (utf8Decode e).isSome = true)
    (hef : hasPair 13 10 ef = false) (hdef : (utf8Decode ef).isSome = true)
    (hresp : hasPair 13 10 resp = false) (hdresp : utf8Decode resp = some r)
    (hr : r ≠ s2b "true")
    (hdata : data.drop (bs * es.length) ≠ [])
    (hc : c.input = goodBlocks es ++ (lineCRLF ef ++ (lineCRLF resp ++ rest)))
    (hfuel : c.input.length < fuel) :
    ∃ c', writeLoop bs fuel data c = (.error (.writeFailed r), c') := by
  induction es generalizing data fuel c with
  | nil =>
    have hd0 : data ≠ [] := by simpa using hdata
    obtain ⟨fl, rfl⟩ : ∃ fl, fuel = fl + 1 := ⟨fuel - 1, by omega⟩
    simp only [writeLoop, if_neg hd0, bind_eq_mbind]
    obtain ⟨df, hdf⟩ := Option.isSome_iff_exists.mp hdef
    have h1 : send_command (cmdWriteBlock (data.take bs)) c
        = (.ok (), ⟨lineCRLF resp ++ rest,
            c.sent ++ [wire (cmdWriteBlock (data.take bs))]⟩) := by
      rw [send_command_ok _ ef (lineCRLF resp ++ rest) hef df hdf c
        (by simp [hc, goodBlocks, lineCRLF, crlf])]
    rw [mbind_ok _ _ _ _ _ h1]
    have h2 : read_line (.str crlf)
        (⟨lineCRLF resp ++ rest, c.sent ++ [wire (cmdWriteBlock (data.take bs))]⟩ : Chan)
        = (.ok r, ⟨rest, c.sent ++ [wire (cmdWriteBlock (data.take bs))]⟩) := by
      rw [read_line_some crlf 13 10 (by decide) rfl resp rest r hresp hdresp _
        (by simp [lineCRLF, crlf])]
    rw [mbind_ok _ _ _ _ _ h2]
    simp only [if_neg hr]
    exact ⟨_, rfl⟩
  | cons e es' ih =>
    have hd0 : data ≠ [] := by
      intro h
      exact hdata (by simp [h])
    obtain ⟨fl, rfl⟩ : ∃ fl, fuel = fl + 1 := ⟨fuel - 1, by omega⟩
    simp only [writeLoop, if_neg hd0, bind_eq_mbind]
    obtain ⟨he, hde⟩ := hes e (by simp)
    obtain ⟨de, hdeS⟩ := Option.isSome_iff_exists.mp hde
    have h1 : send_command (cmdWriteBlock (data.take bs)) c
        = (.ok (), ⟨lineCRLF (s2b "true") ++ (goodBlocks es' ++ (lineCRLF ef ++ (lineCRLF resp ++ rest))),
            c.sent ++ [wire (cmdWriteBlock (data.take bs))]⟩) := by
      rw [send_command_ok _ e
        (lineCRLF (s2b "true") ++ (goodBlocks es' ++ (lineCRLF ef ++ (lineCRLF resp ++ rest))))
        he de hdeS c (by simp [hc, goodBlocks, lineCRLF, crlf])]
    rw [mbind_ok _ _ _ _ _ h1]
    have h2 : read_line (.str crlf)
        (⟨lineCRLF (s2b "true") ++ (goodBlocks es' ++ (lineCRLF ef ++ (lineCRLF resp ++ rest))),
          c.sent ++ [wire (cmdWriteBlock (data.take bs))]⟩ : Chan)
        = (.ok (s2b "true"),
           ⟨goodBlocks es' ++ (lineCRLF ef ++ (lineCRLF resp ++ rest)),
            c.sent ++ [wire (cmdWriteBlock (data.take bs))]⟩) := by
      rw [read_line_some crlf 13 10 (by decide) rfl (s2b "true")
        (goodBlocks es' ++ (lineCRLF ef ++ (lineCRLF resp ++ rest))) (s2b "true")
        (by decide) (by decide) _ (by simp [lineCRLF, crlf])]
    rw [mbind_ok _ _ _ _ _ h2]
    simp only [if_pos rfl]
    apply ih (data.drop bs) fl _ (fun x hx => hes x (by simp [hx]))
    · rw [List.drop_drop]
      have harith : bs + bs * es'.length = bs * (es'.length + 1) := by ring
      rw [harith]
      simpa using hdata
    · rfl
    · show (goodBlocks es' ++ (lineCRLF ef ++ (lineCRLF resp ++ rest))).length < fl
      have : c.input.length = e.length + 2 +
          ((s2b "true").length + 2 +
           (goodBlocks es' ++ (lineCRLF ef ++ (lineCRLF resp ++ rest))).length) := by
        rw [hc]
        simp [goodBlocks, lineCRLF, crlf]
        ring
      omega


/-- Claim C6: in `write_file`, if the open-for-write response is the `nil`
sentinel, the file-open error is raised with only the close and open
commands on the wire — no write-block request was sent; and if any
write-block response (after any number of `true`-acknowledged blocks)
differs from the `true` sentinel exactly, a write error carrying that
response is raised. -/
theorem c6_write_file_error_handling :
    (∀ fn data bs, ∀ e1 e2 rest : List Nat,
      hasPair 13 10 e1 = false → (utf8Decode e1).isSome = true →
      hasPair 13 10 e2 = false → (utf8Decode e2).isSome = true →
      write_file fn data bs
        ⟨lineCRLF e1 ++ (lineCRLF e2 ++ (lineCRLF (s2b "nil") ++ rest)), []⟩ =
        (.error .couldNotOpenForWriting,
         ⟨rest, [wire strFileClose, wire (cmdOpenW fn)]⟩)) ∧
    (∀ fn data bs, ∀ es : List (List Nat), ∀ e1 e2 ef resp r rest : List Nat,
      hasPair 13 10 e1 = false → (utf8Decode e1).isSome = true →
      hasPair 13 10 e2 = false → (utf8Decode e2).isSome = true →
      (∀ e ∈ es, hasPair 13 10 e = false ∧ (utf8Decode e).isSome = true) →
      hasPair 13 10 ef = false → (utf8Decode ef).isSome = true →
      hasPair 13 10 resp = false → utf8Decode resp = some r → r ≠ s2b "true" →
      data.drop (bs * es.length) ≠ [] →
      (write_file fn data bs
        ⟨lineCRLF e1 ++ (lineCRLF e2 ++ (lineCRLF (s2b "true") ++
          (goodBlocks es ++ (lineCRLF ef ++ (lineCRLF resp ++ rest))))), []⟩).1 =
        .error (.writeFailed r)) := by
  constructor
  · intro fn data bs e1 e2 rest hp1 hd1 hp2 hd2
    obtain ⟨f1, hf1⟩ := Option.isSome_iff_exists.mp hd1
    obtain ⟨f2, hf2⟩ := Option.isSome_iff_exists.mp hd2
    simp only [write_file, bind_eq_mbind]
    have h1 : send_command strFileClose
        (⟨lineCRLF e1 ++ (lineCRLF e2 ++ (lineCRLF (s2b "nil") ++ rest)), []⟩ : Chan)
        = (.ok (), ⟨lineCRLF e2 ++ (lineCRLF (s2b "nil") ++ rest), [wire strFileClose]⟩) := by
      rw [send_command_ok _ e1 (lineCRLF e2 ++ (lineCRLF (s2b "nil") ++ rest)) hp1 f1 hf1 _
        (by simp [lineCRLF, crlf])]
      simp
    rw [mbind_ok _ _ _ _ _ h1]
    have h2 : send_command (cmdOpenW fn)
        (⟨lineCRLF e2 ++ (lineCRLF (s2b "nil") ++ rest), [wire strFileClose]⟩ : Chan)
        = (.ok (), ⟨lineCRLF (s2b "nil") ++ rest,
            [wire strFileClose, wire (cmdOpenW fn)]⟩) := by
      rw [send_command_ok _ e2 (lineCRLF (s2b "nil") ++ rest) hp2 f2 hf2 _
        (by simp [lineCRLF, crlf])]
      simp
    rw [mbind_ok _ _ _ _ _ h2]
    have h3 : read_line (.str crlf)
        (⟨lineCRLF (s2b "nil") ++ rest, [wire strFileClose, wire (cmdOpenW fn)]⟩ : Chan)
        = (.ok (s2b "nil"), ⟨rest, [wire strFileClose, wire (cmdOpenW fn)]⟩) := by
      rw [read_line_some crlf 13 10 (by decide) rfl (s2b "nil") rest (s2b "nil")
        (by decide) (by decide) _ (by simp [lineCRLF, crlf])]
    rw [mbind_ok _ _ _ _ _ h3]
    simp only [if_pos rfl]
    rfl
  · intro fn data bs es e1 e2 ef resp r rest hp1 hd1 hp2 hd2 hes hef hdef hresp hdresp hr hdata
    obtain ⟨f1, hf1⟩ := Option.isSome_iff_exists.mp hd1
    obtain ⟨f2, hf2⟩ := Option.isSome_iff_exists.mp hd2
    simp only [write_file, bind_eq_mbind]
    have h1 : send_command strFileClose
        (⟨lineCRLF e1 ++ (lineCRLF e2 ++ (lineCRLF (s2b "true") ++
           (goodBlocks es ++ (lineCRLF ef ++ (lineCRLF resp ++ rest))))), []⟩ : Chan)
        = (.ok (), ⟨lineCRLF e2 ++ (lineCRLF (s2b "true") ++
            (goodBlocks es ++ (lineCRLF ef ++ (lineCRLF resp ++ rest)))),
            [wire strFileClose]⟩) := by
      rw [send_command_ok _ e1 (lineCRLF e2 ++ (lineCRLF (s2b "true") ++
        (goodBlocks es ++ (lineCRLF ef ++ (lineCRLF resp ++ rest))))) hp1 f1 hf1 _
        (by simp [lineCRLF, crlf])]
      simp
    rw [mbind_ok _ _ _ _ _ h1]
    have h2 : send_command (cmdOpenW fn)
        (⟨lineCRLF e2 ++ (lineCRLF (s2b "true") ++
           (goodBlocks es ++ (lineCRLF ef ++ (lineCRLF resp ++ rest)))),
          [wire strFileClose]⟩ : Chan)
        = (.ok (), ⟨lineCRLF (s2b "true") ++
            (goodBlocks es ++ (lineCRLF ef ++ (lineCRLF resp ++ rest))),
            [wire strFileClose, wire (cmdOpenW fn)]⟩) := by
      rw [send_command_ok _ e2 (lineCRLF (s2b "true") ++
        (goodBlocks es ++ (lineCRLF ef ++ (lineCRLF resp ++ rest)))) hp2 f2 hf2 _
        (by simp [lineCRLF, crlf])]
      simp
    rw [mbind_ok _ _ _ _ _ h2]
    have h3 : read_line (.str crlf)
        (⟨lineCRLF (s2b "true") ++ (goodBlocks es ++ (lineCRLF ef ++ (lineCRLF resp ++ rest))),
          [wire strFileClose, wire (cmdOpenW fn)]⟩ : Chan)
        = (.ok (s2b "true"),
           ⟨goodBlocks es ++ (lineCRLF ef ++ (lineCRLF resp ++ rest)),
            [wire strFileClose, wire (cmdOpenW fn)]⟩) := by
      rw [read_line_some crlf 13 10 (by decide) rfl (s2b "true")
        (goodBlocks es ++ (lineCRLF ef ++ (lineCRLF resp ++ rest))) (s2b "true")
        (by decide) (by decide) _ (by simp [lineCRLF, crlf])]
    rw [mbind_ok _ _ _ _ _ h3]
    simp only [if_neg (by decide : ¬ s2b "true" = s2b "nil"), bind_eq_mbind]
    set c3 : Chan := ⟨goodBlocks es ++ (lineCRLF ef ++ (lineCRLF resp ++ rest)),
      [wire strFileClose, wire (cmdOpenW fn)]⟩ with hc3
    obtain ⟨c', hcl⟩ := writeLoop_fail bs es data ef resp r rest (c3.input.length + 1) c3
      hes hef hdef hresp hdresp hr hdata (by rw [hc3]) (by omega)
    have h4 : withFuel (fun fl => writeLoop bs fl data) c3
        = (.error (.writeFailed r), c') := by
      rw [show withFuel (fun fl => writeLoop bs fl data) c3
        = writeLoop bs (c3.input.length + 1) data c3 from rfl, hcl]
    rw [mbind_error _ _ _ _ _ h4]


theorem c6_witness :
    write_file (s2b "test.txt") (s2b "1234") 64
      ⟨lineCRLF (s2b "file.close()") ++ (lineCRLF (s2b "=file.open('test.txt', 'w')") ++
        (lineCRLF (s2b "nil") ++ [])), []⟩ =
      (.error .couldNotOpenForWriting,
       ⟨[], [wire strFileClose, wire (cmdOpenW (s2b "test.txt"))]⟩) ∧
    (write_file (s2b "test.txt") (s2b "123") 2
      ⟨lineCRLF (s2b "file.close()") ++ (lineCRLF (s2b "=file.open('test.txt', 'w')") ++
        (lineCRLF (s2b "true") ++ (goodBlocks [s2b "=file.write('12')"] ++
          (lineCRLF (s2b "=file.write('3')") ++ (lineCRLF (s2b "nil") ++ []))))), []⟩).1 =
      .error (.writeFailed (s2b "nil")) :=
  ⟨c6_write_file_error_handling.1 (s2b "test.txt") (s2b "1234") 64 (s2b "file.close()")
     (s2b "=file.open('test.txt', 'w')") [] (by decide) (by decide) (by decide) (by decide),
   c6_write_file_error_handling.2 (s2b "test.txt") (s2b "123") 2 [s2b "=file.write('12')"]
     (s2b "file.close()") (s2b "=file.open('test.txt', 'w')") (s2b "=file.write('3')")
     (s2b "nil") (s2b "nil") [] (by decide) (by decide) (by decide) (by decide) (by decide)
     (by decide) (by decide) (by decide) (by decide) (by decide) (by decide)⟩

lemma writeLoop_sent_first (bs fuel : Nat) (data : List Nat) (c : Chan)
    (hdata : data ≠ []) (hfuel : 0 < fuel) :
    ∃ u, ((writeLoop bs fuel data c).2).sent
      = c.sent ++ [wire (cmdWriteBlock (data.take bs))] ++ u := by
  obtain ⟨fl, rfl⟩ : ∃ fl, fuel = fl + 1 := ⟨fuel - 1, by omega⟩
  simp only [writeLoop, if_neg hdata, bind_eq_mbind]
  rcases h1 : send_command (cmdWriteBlock (data.take bs)) c with ⟨x1, c1⟩
  have hs1 : c1.sent = c.sent ++ [wire (cmdWriteBlock (data.take bs))] := by
    have := send_command_sent (cmdWriteBlock (data.take bs)) c
    rw [h1] at this
    exact this
  cases x1 with
  | error e => rw [mbind_error _ _ _ _ _ h1]; exact ⟨[], by simp [hs1]⟩
  | ok v =>
    rw [mbind_ok _ _ _ _ _ h1]
    rcases h2 : read_line (.str crlf) c1 with ⟨x2, c2⟩
    have hs2 : c2.sent = c1.sent := by
      have := read_line_sent (.str crlf) c1
      rw [h2] at this
      exact this
    cases x2 with
    | error e => rw [mbind_error _ _ _ _ _ h2]; exact ⟨[], by simp [hs2, hs1]⟩
    | ok resp =>
      rw [mbind_ok _ _ _ _ _ h2]
      by_cases hresp : resp = s2b "true"
      · rw [if_pos hresp]
        obtain ⟨u, hu⟩ := writeLoop_sent bs fl (data.drop bs) c2
        exact ⟨u, by rw [hu, hs2, hs1]⟩
      · rw [if_neg hresp]
        exact ⟨[], by
          rw [show ((throwE (Err.writeFailed resp) : M Unit) c2).2 = c2 from rfl, hs2, hs1]
          simp⟩

/-- Claim C10 (implicit): `write_file` raises its file-open error exactly
when the open response equals `"nil"`; every other response — the empty
line and arbitrary text included — is treated as a successful open, after
which the first write-block request is sent; asymmetrically, `read_file`'s
open raises its error for every response other than `"true"` exactly. -/
theorem c10_write_open_nil_only :
    (∀ fn data bs, ∀ e1 e2 resp r rest : List Nat,
      hasPair 13 10 e1 = false → (utf8Decode e1).isSome = true →
      hasPair 13 10 e2 = false → (utf8Decode e2).isSome = true →
      hasPair 13 10 resp = false → utf8Decode resp = some r →
      (r = s2b "nil" →
        write_file fn data bs ⟨lineCRLF e1 ++ (lineCRLF e2 ++ (lineCRLF resp ++ rest)), []⟩ =
          (.error .couldNotOpenForWriting,
           ⟨rest, [wire strFileClose, wire (cmdOpenW fn)]⟩)) ∧
      (r ≠ s2b "nil" → data ≠ [] →
        ((write_file fn data bs
            ⟨lineCRLF e1 ++ (lineCRLF e2 ++ (lineCRLF resp ++ rest)), []⟩).2).sent.take 3 =
          [wire strFileClose, wire (cmdOpenW fn), wire (cmdWriteBlock (data.take bs))])) ∧
    (∀ fn bs, ∀ e1 e2 e3 resp r rest : List Nat,
      hasPair 13 10 e1 = false → (utf8Decode e1).isSome = true →
      hasPair 13 10 e2 = false → (utf8Decode e2).isSome = true →
      hasPair 13 10 e3 = false → (utf8Decode e3).isSome = true →
      hasPair 13 10 resp = false → utf8Decode resp = some r → r ≠ s2b "true" →
      (read_file fn bs ⟨lineCRLF e1 ++ (lineCRLF e2 ++ (lineCRLF (s2b "3") ++
        (lineCRLF e3 ++ (lineCRLF resp ++ rest)))), []⟩).1 = .error .couldNotOpen) := by
  constructor
  · intro fn data bs e1 e2 resp r rest hp1 hd1 hp2 hd2 hpresp hdresp
    obtain ⟨f1, hf1⟩ := Option.isSome_iff_exists.mp hd1
    obtain ⟨f2, hf2⟩ := Option.isSome_iff_exists.mp hd2
    have h1 : send_command strFileClose
        (⟨lineCRLF e1 ++ (lineCRLF e2 ++ (lineCRLF resp ++ rest)), []⟩ : Chan)
        = (.ok (), ⟨lineCRLF e2 ++ (lineCRLF resp ++ rest), [wire strFileClose]⟩) := by
      rw [send_command_ok _ e1 (lineCRLF e2 ++ (lineCRLF resp ++ rest)) hp1 f1 hf1 _
        (by simp [lineCRLF, crlf])]
      simp
    have h2 : send_command (cmdOpenW fn)
        (⟨lineCRLF e2 ++ (lineCRLF resp ++ rest), [wire strFileClose]⟩ : Chan)
        = (.ok (), ⟨lineCRLF resp ++ rest,
            [wire strFileClose, wire (cmdOpenW fn)]⟩) := by
      rw [send_command_ok _ e2 (lineCRLF resp ++ rest) hp2 f2 hf2 _
        (by simp [lineCRLF, crlf])]
      simp
    have h3 : read_line (.str crlf)
        (⟨lineCRLF resp ++ rest, [wire strFileClose, wire (cmdOpenW fn)]⟩ : Chan)
        = (.ok r, ⟨rest, [wire strFileClose, wire (cmdOpenW fn)]⟩) := by
      rw [read_line_some crlf 13 10 (by decide) rfl resp rest r hpresp hdresp _
        (by simp [lineCRLF, crlf])]
    constructor
    · intro hnil
      simp only [write_file, bind_eq_mbind]
      rw [mbind_ok _ _ _ _ _ h1, mbind_ok _ _ _ _ _ h2, mbind_ok _ _ _ _ _ h3,
        if_pos hnil]
      rfl
    · intro hnotnil hdata0
      simp only [write_file, bind_eq_mbind]
      rw [mbind_ok _ _ _ _ _ h1, mbind_ok _ _ _ _ _ h2, mbind_ok _ _ _ _ _ h3,
        if_neg hnotnil]
      set c3 : Chan := ⟨rest, [wire strFileClose, wire (cmdOpenW fn)]⟩ with hc3
      rcases hwf : withFuel (fun fl => writeLoop bs fl data) c3 with ⟨xw, cw⟩
      have hws : ∃ u, cw.sent
          = [wire strFileClose, wire (cmdOpenW fn), wire (cmdWriteBlock (data.take bs))] ++ u := by
        obtain ⟨u, hu⟩ := writeLoop_sent_first bs (c3.input.length + 1) data c3 hdata0 (by omega)
        have hwf' : writeLoop bs (c3.input.length + 1) data c3 = (xw, cw) := hwf
        rw [hwf'] at hu
        exact ⟨u, by simpa [hc3] using hu⟩
      obtain ⟨u, hu⟩ := hws
      cases xw with
      | error e =>
        rw [mbind_error _ _ _ _ _ hwf, hu]
        simp
      | ok v =>
        rw [mbind_ok _ _ _ _ _ hwf]
        have := send_command_sent strFileClose cw
        rw [this, hu]
        simp
  · intro fn bs e1 e2 e3 resp r rest hp1 hd1 hp2 hd2 hp3 hd3 hpresp hdresp hr
    obtain ⟨f1, hf1⟩ := Option.isSome_iff_exists.mp hd1
    obtain ⟨f2, hf2⟩ := Option.isSome_iff_exists.mp hd2
    obtain ⟨f3, hf3⟩ := Option.isSome_iff_exists.mp hd3
    simp only [read_file, bind_eq_mbind]
    have h1 : send_command strFileClose
        (⟨lineCRLF e1 ++ (lineCRLF e2 ++ (lineCRLF (s2b "3") ++
           (lineCRLF e3 ++ (lineCRLF resp ++ rest)))), []⟩ : Chan)
        = (.ok (), ⟨lineCRLF e2 ++ (lineCRLF (s2b "3") ++
            (lineCRLF e3 ++ (lineCRLF resp ++ rest))), [wire strFileClose]⟩) := by
      rw [send_command_ok _ e1 (lineCRLF e2 ++ (lineCRLF (s2b "3") ++
        (lineCRLF e3 ++ (lineCRLF resp ++ rest)))) hp1 f1 hf1 _ (by simp [lineCRLF, crlf])]
      simp
    rw [mbind_ok _ _ _ _ _ h1]
    have h2 : send_command (cmdSizeLookup fn)
        (⟨lineCRLF e2 ++ (lineCRLF (s2b "3") ++ (lineCRLF e3 ++ (lineCRLF resp ++ rest))),
          [wire strFileClose]⟩ : Chan)
        = (.ok (), ⟨lineCRLF (s2b "3") ++ (lineCRLF e3 ++ (lineCRLF resp ++ rest)),
            [wire strFileClose, wire (cmdSizeLookup fn)]⟩) := by
      rw [send_command_ok _ e2 (lineCRLF (s2b "3") ++ (lineCRLF e3 ++ (lineCRLF resp ++ rest)))
        hp2 f2 hf2 _ (by simp [lineCRLF, crlf])]
      simp
    rw [mbind_ok _ _ _ _ _ h2]
    have h3 : read_line (.str crlf)
        (⟨lineCRLF (s2b "3") ++ (lineCRLF e3 ++ (lineCRLF resp ++ rest)),
          [wire strFileClose, wire (cmdSizeLookup fn)]⟩ : Chan)
        = (.ok (s2b "3"), ⟨lineCRLF e3 ++ (lineCRLF resp ++ rest),
            [wire strFileClose, wire (cmdSizeLookup fn)]⟩) := by
      rw [read_line_some crlf 13 10 (by decide) rfl (s2b "3")
        (lineCRLF e3 ++ (lineCRLF resp ++ rest)) (s2b "3") (by decide) (by decide) _
        (by simp [lineCRLF, crlf])]
    rw [mbind_ok _ _ _ _ _ h3]
    simp only [if_neg (by decide : ¬ s2b "3" = s2b "nil"), bind_eq_mbind]
    set c3 : Chan := ⟨lineCRLF e3 ++ (lineCRLF resp ++ rest),
      [wire strFileClose, wire (cmdSizeLookup fn)]⟩ with hc3
    have h4 : liftE (pyInt (s2b "3")) c3 = ((.ok 3 : Except Err Int), c3) := by
      show (pyInt (s2b "3"), c3) = _
      rw [show pyInt (s2b "3") = .ok 3 from by decide]
    rw [mbind_ok _ _ _ _ _ h4]
    have h5 : send_command (cmdOpenR fn) c3
        = (.ok (), ⟨lineCRLF resp ++ rest,
            [wire strFileClose, wire (cmdSizeLookup fn), wire (cmdOpenR fn)]⟩) := by
      rw [send_command_ok _ e3 (lineCRLF resp ++ rest) hp3 f3 hf3 _
        (by simp [hc3, lineCRLF, crlf])]
      simp [hc3]
    rw [mbind_ok _ _ _ _ _ h5]
    have h6 : read_line (.str crlf)
        (⟨lineCRLF resp ++ rest,
          [wire strFileClose, wire (cmdSizeLookup fn), wire (cmdOpenR fn)]⟩ : Chan)
        = (.ok r, ⟨rest,
            [wire strFileClose, wire (cmdSizeLookup fn), wire (cmdOpenR fn)]⟩) := by
      rw [read_line_some crlf 13 10 (by decide) rfl resp rest r hpresp hdresp _
        (by simp [lineCRLF, crlf])]
    rw [mbind_ok _ _ _ _ _ h6, if_pos hr]
    rfl


theorem c10_witness :
    write_file (s2b "a") (s2b "12") 64
      ⟨lineCRLF (s2b "file.close()") ++ (lineCRLF (s2b "=file.open('a', 'w')") ++
        (lineCRLF (s2b "nil") ++ [])), []⟩ =
      (.error .couldNotOpenForWriting,
       ⟨[], [wire strFileClose, wire (cmdOpenW (s2b "a"))]⟩) ∧
    ((write_file (s2b "a") (s2b "12") 64
      ⟨lineCRLF (s2b "file.close()") ++ (lineCRLF (s2b "=file.open('a', 'w')") ++
        (lineCRLF [] ++ [])), []⟩).2).sent.take 3 =
      [wire strFileClose, wire (cmdOpenW (s2b "a")),
       wire (cmdWriteBlock ((s2b "12").take 64))] ∧
    (read_file (s2b "a") 64
      ⟨lineCRLF (s2b "file.close()") ++ (lineCRLF (s2b "=file.list()['a']") ++
        (lineCRLF (s2b "3") ++ (lineCRLF (s2b "=file.open('a', 'r')") ++
          (lineCRLF (s2b "nil") ++ [])))), []⟩).1 = .error .couldNotOpen :=
  ⟨(c10_write_open_nil_only.1 (s2b "a") (s2b "12") 64 (s2b "file.close()")
      (s2b "=file.open('a', 'w')") (s2b "nil") (s2b "nil") [] (by decide) (by decide)
      (by decide) (by decide) (by decide) (by decide)).1 rfl,
   (c10_write_open_nil_only.1 (s2b "a") (s2b "12") 64 (s2b "file.close()")
      (s2b "=file.open('a', 'w')") [] [] [] (by decide) (by decide)
      (by decide) (by decide) (by decide) (by decide)).2 (by decide) (by decide),
   c10_write_open_nil_only.2 (s2b "a") 64 (s2b "file.close()") (s2b "=file.list()['a']")
      (s2b "=file.open('a', 'r')") (s2b "nil") (s2b "nil") [] (by decide) (by decide)
      (by decide) (by decide) (by decide) (by decide) (by decide) (by decide) (by decide)⟩


end Nodemcuload
